import Mathlib

/-!
Verification of the agent-manager CRUD core (`src/app.py`).

The embedding models:
* `Agent` records (id, name, prompt, model, tools);
* the SQLite `agents` table as a list of rows (`id TEXT PRIMARY KEY`,
  `name/prompt/model TEXT NOT NULL`, `tools TEXT` nullable), with
  `INSERT` failing on a primary-key collision and `DELETE ... WHERE id = ?`
  filtering rows;
* `json.dumps` / `json.loads` (stdlib, called on lists of strings only) as an
  executable JSON array-of-strings printer and parser; the printer keeps
  non-ASCII characters literal, which `json.loads` round-trips identically;
* the Streamlit callbacks `add_agent`, `delete_agent`, `run_team_simulation`,
  `clear_log` as functions on an explicit world state (session state, table,
  emitted toasts); an uncaught sqlite constraint error inside `add_agent` is
  modelled by the `Except.error` branch carrying the post-exception state;
* `st.toast` messages as an inductive tag (the message text is presentation).
-/

/-- An agent record: `Agent.__init__` fields (`id` generated by the caller of
the model, standing for `uuid.uuid4()` when absent). -/
structure AgentRec where
  id : String
  name : String
  prompt : String
  model : String
  tools : List String
  deriving Repr, DecidableEq

/-- One row of the `agents` table; `tools` is a nullable TEXT column. -/
structure Row where
  id : String
  name : String
  prompt : String
  model : String
  tools : Option String
  deriving Repr, DecidableEq

/-- Database failure: sqlite raises `IntegrityError` on a duplicate primary
key during `INSERT`. -/
inductive DbError where
  | constraintViolation
  deriving Repr, DecidableEq

/-- Tag of each `st.toast` call (message text abstracted away). -/
inductive Toast where
  | validationError
  | createdSuccess (name : String)
  | agentDeleted (name : String)
  | selectEmptyWarning
  | simulationFinished
  | logCleared
  deriving Repr, DecidableEq

/-- The `st.session_state` fields the callbacks read and write. -/
structure SessionState where
  agents : List AgentRec
  simulation_log : List String
  agent_name_input : String
  agent_prompt_input : String
  agent_model_input : String
  agent_tools_input : List String
  team_multiselect : List String
  deriving Repr, DecidableEq

/-- World state threaded through a callback: session state, the `agents`
table, and the toasts emitted so far. -/
structure World where
  session : SessionState
  db : List Row
  toasts : List Toast
  deriving Repr, DecidableEq

/-! ## JSON array-of-strings serialization (`json.dumps` / `json.loads`) -/

/-- Lowercase hexadecimal digit for `\u00xx` escapes. -/
def hexDigit (n : Nat) : Char :=
  if n < 10 then Char.ofNat (48 + n) else Char.ofNat (87 + n)

/-- JSON escaping of one character inside a string literal: `"` and `\` are
escaped, the control characters get their short escapes or `\u00xx`, and
everything else is kept literal. -/
def escChar (c : Char) : List Char :=
  if c = '"' then ['\\', '"']
  else if c = '\\' then ['\\', '\\']
  else if c = '\n' then ['\\', 'n']
  else if c = '\t' then ['\\', 't']
  else if c = '\r' then ['\\', 'r']
  else if c = Char.ofNat 8 then ['\\', 'b']
  else if c = Char.ofNat 12 then ['\\', 'f']
  else if c.toNat < 32 then
    ['\\', 'u', '0', '0', hexDigit (c.toNat / 16), hexDigit (c.toNat % 16)]
  else [c]

/-- Escape a whole string body. -/
def escStr (s : List Char) : List Char :=
  (s.map escChar).flatten

/-- A JSON string literal: quoted escaped body. -/
def quoteStr (s : List Char) : List Char :=
  '"' :: escStr s ++ ['"']

/-- `", ".join`-style concatenation with a separator between elements. -/
def joinSep (sep : List Char) : List (List Char) → List Char
  | [] => []
  | [x] => x
  | x :: y :: t => x ++ sep ++ joinSep sep (y :: t)

/-- `json.dumps` on a list of strings: a JSON array, elements separated by
a comma and a space (the Python default separator). -/
def dumpsList (ts : List String) : List Char :=
  '[' :: (joinSep [',', ' '] (ts.map fun t => quoteStr t.toList)) ++ [']']

/-- `json.dumps(tools)` as a `String`. -/
def json_dumps (ts : List String) : String :=
  String.mk (dumpsList ts)

/-- Value of one hexadecimal digit character, if any. -/
def parseHex (c : Char) : Option Nat :=
  if 48 ≤ c.toNat ∧ c.toNat ≤ 57 then some (c.toNat - 48)
  else if 97 ≤ c.toNat ∧ c.toNat ≤ 102 then some (c.toNat - 87)
  else if 65 ≤ c.toNat ∧ c.toNat ≤ 70 then some (c.toNat - 55)
  else none

/-- Short escape codes accepted after a backslash in a JSON string. -/
def escCode (e : Char) : Option Char :=
  if e = '"' then some '"'
  else if e = '\\' then some '\\'
  else if e = '/' then some '/'
  else if e = 'n' then some '\n'
  else if e = 't' then some '\t'
  else if e = 'r' then some '\r'
  else if e = 'b' then some (Char.ofNat 8)
  else if e = 'f' then some (Char.ofNat 12)
  else none

/-- Parse the body of a JSON string literal up to its closing quote,
returning the decoded characters and the rest of the input.  The `fuel`
argument only bounds recursion; one unit is spent per decoded character. -/
def parseStringBody : Nat → List Char → Option (List Char × List Char)
  | 0, _ => none
  | _ + 1, [] => none
  | fuel + 1, c :: rest =>
    if c = '"' then some ([], rest)
    else if c = '\\' then
      match rest with
      | [] => none
      | e :: rest2 =>
        if e = 'u' then
          match rest2 with
          | h1 :: h2 :: h3 :: h4 :: rest3 =>
            match parseHex h1, parseHex h2, parseHex h3, parseHex h4 with
            | some a, some b, some c2, some d =>
              let code := ((a * 16 + b) * 16 + c2) * 16 + d
              if code < 55296 then
                (parseStringBody fuel rest3).map fun p => (Char.ofNat code :: p.1, p.2)
              else none
            | _, _, _, _ => none
          | _ => none
        else
          match escCode e with
          | some ec => (parseStringBody fuel rest2).map fun p => (ec :: p.1, p.2)
          | none => none
    else (parseStringBody fuel rest).map fun p => (c :: p.1, p.2)

/-- JSON whitespace. -/
def isWs (c : Char) : Bool :=
  c = ' ' || c = '\n' || c = '\t' || c = '\r'

/-- Drop leading JSON whitespace. -/
def skipWs (l : List Char) : List Char :=
  l.dropWhile isWs

/-- Parse a comma-separated sequence of JSON strings followed by `]`,
returning the decoded strings and the rest of the input.  One unit of fuel
is spent per element. -/
def parseItems : Nat → List Char → Option (List (List Char) × List Char)
  | 0, _ => none
  | fuel + 1, l =>
    match skipWs l with
    | '"' :: r =>
      match parseStringBody (r.length + 1) r with
      | some (s, r2) =>
        match skipWs r2 with
        | ',' :: r3 => (parseItems fuel r3).map fun p => (s :: p.1, p.2)
        | ']' :: r3 => some ([s], r3)
        | _ => none
      | none => none
    | _ => none

/-- `json.loads` restricted to what the app ever stores: a JSON array of
strings.  Returns `none` where `json.loads` would raise. -/
def json_loads (s : String) : Option (List String) :=
  match skipWs s.toList with
  | '[' :: r =>
    match skipWs r with
    | ']' :: r2 => if skipWs r2 = [] then some [] else none
    | _ =>
      match parseItems (r.length + 1) r with
      | some (items, r2) =>
        if skipWs r2 = [] then some (items.map String.mk) else none
      | none => none
  | _ => none

/-! ## Repository (`load_agents_from_db`, `save_agent_to_db`,
`delete_agent_from_db`) -/

/-- The row `save_agent_to_db` inserts for an agent. -/
def agentRow (a : AgentRec) : Row :=
  { id := a.id, name := a.name, prompt := a.prompt, model := a.model,
    tools := some (json_dumps a.tools) }

/-- `save_agent_to_db`: `INSERT INTO agents ...`; sqlite rejects a duplicate
primary key, which surfaces as an uncaught `IntegrityError` (no row written). -/
def save_agent_to_db (db : List Row) (a : AgentRec) : Except DbError (List Row) :=
  if db.any fun r => r.id == a.id then Except.error DbError.constraintViolation
  else Except.ok (db ++ [agentRow a])

/-- Reconstruction of one agent from a row:
`tools_list = json.loads(row[4]) if row[4] else []` (NULL and the empty
string are falsy).  `none` where `json.loads` would raise. -/
def agentOfRow (r : Row) : Option AgentRec :=
  match r.tools with
  | none => some { id := r.id, name := r.name, prompt := r.prompt, model := r.model, tools := [] }
  | some s =>
    if s = "" then
      some { id := r.id, name := r.name, prompt := r.prompt, model := r.model, tools := [] }
    else
      (json_loads s).map fun ts =>
        { id := r.id, name := r.name, prompt := r.prompt, model := r.model, tools := ts }

/-- `load_agents_from_db`: `SELECT` every row and rebuild the agents in row
order (the loop body per row is `agentOfRow`); `none` as soon as a row's
`tools` text fails to deserialize. -/
def load_agents_from_db : List Row → Option (List AgentRec)
  | [] => some []
  | r :: rest => do
    let a ← agentOfRow r
    let l ← load_agents_from_db rest
    pure (a :: l)

/-- `delete_agent_from_db`: `DELETE FROM agents WHERE id = ?`. -/
def delete_agent_from_db (db : List Row) (agent_id : String) : List Row :=
  db.filter fun r => r.id != agent_id

/-! ## Simulation formatting (`Agent.simulate_work`) -/

/-- `Agent.simulate_work` without the `time.sleep`: the formatted work block. -/
def simulate_work (a : AgentRec) : String :=
  let tools_used :=
    if a.tools.isEmpty then "без инструментов."
    else "с инструментами: " ++ String.intercalate ", " a.tools
  "**" ++ a.name ++ " (" ++ a.model ++ "):**\n> " ++ a.prompt ++
    "\n\n*Задача выполнена " ++ tools_used ++ "*"

/-- Log marker opening a team simulation. -/
def startMarker : String := "--- Начало новой командной симуляции ---"

/-- Log marker closing a team simulation. -/
def endMarker : String := "--- Командная симуляция завершена ---"

/-! ## Callbacks (`add_agent`, `delete_agent`, `run_team_simulation`,
`clear_log`) -/

/-- The `Agent(...)` constructor call inside `add_agent`: a record built from
the current input fields and the generated id. -/
def newAgentOf (freshId : String) (w : World) : AgentRec :=
  { id := freshId, name := w.session.agent_name_input,
    prompt := w.session.agent_prompt_input,
    model := w.session.agent_model_input,
    tools := w.session.agent_tools_input }

/-- `add_agent`, with the `uuid.uuid4()` result passed in as `freshId`.
Validation failure toasts and returns.  Otherwise the new agent is appended
to `session_state.agents` and then saved; if the save raises, the exception
propagates with the append already done (`Except.error` carries that state). -/
def add_agent (freshId : String) (w : World) : Except World World :=
  let name := w.session.agent_name_input
  let prompt := w.session.agent_prompt_input
  if name = "" ∨ prompt = "" then
    Except.ok { w with toasts := w.toasts ++ [Toast.validationError] }
  else
    let new_agent : AgentRec := newAgentOf freshId w
    let w1 : World :=
      { w with session := { w.session with agents := w.session.agents ++ [new_agent] } }
    match save_agent_to_db w1.db new_agent with
    | Except.error _ => Except.error w1
    | Except.ok db2 =>
      Except.ok
        { w1 with
          db := db2,
          toasts := w1.toasts ++ [Toast.createdSuccess name],
          session := { w1.session with agent_name_input := "", agent_prompt_input := "" } }

/-- `delete_agent`: find the first agent with the id; if none, do nothing;
otherwise `list.remove` that object (the first id match), delete the row,
and toast. -/
def delete_agent (agent_id : String) (w : World) : World :=
  match w.session.agents.find? (fun a => a.id == agent_id) with
  | none => w
  | some a =>
    { w with
      session :=
        { w.session with
          agents := w.session.agents.eraseP (fun x => x.id == agent_id) },
      db := delete_agent_from_db w.db agent_id,
      toasts := w.toasts ++ [Toast.agentDeleted a.name] }

/-- `run_team_simulation`: warn on an empty selection; otherwise append the
start marker, then one work block per selected name that resolves in
`session_state.agents` (first name match; unresolved names skipped), then
the end marker. -/
def run_team_simulation (w : World) : World :=
  let selected := w.session.team_multiselect
  if selected.isEmpty then
    { w with toasts := w.toasts ++ [Toast.selectEmptyWarning] }
  else
    let log1 := w.session.simulation_log ++ [startMarker]
    let log2 := selected.foldl
      (fun acc n =>
        match w.session.agents.find? (fun a => a.name == n) with
        | some agent => acc ++ [simulate_work agent]
        | none => acc)
      log1
    { w with
      session := { w.session with simulation_log := log2 ++ [endMarker] },
      toasts := w.toasts ++ [Toast.simulationFinished] }

/-- `clear_log`: reset the simulation log. -/
def clear_log (w : World) : World :=
  { w with
    session := { w.session with simulation_log := [] },
    toasts := w.toasts ++ [Toast.logCleared] }

/-! ## JSON round-trip lemmas -/

theorem escStr_cons (c : Char) (t : List Char) :
    escStr (c :: t) = escChar c ++ escStr t := by
  simp [escStr]

theorem escChar_length_pos (c : Char) : 1 ≤ (escChar c).length := by
  unfold escChar
  repeat' split
  all_goals simp

theorem length_le_escStr (s : List Char) : s.length ≤ (escStr s).length := by
  induction s with
  | nil => simp [escStr]
  | cons c t ih =>
    rw [escStr_cons, List.length_append, List.length_cons]
    have := escChar_length_pos c
    omega

theorem parseHex_hexDigit (n : Nat) (h : n < 16) : parseHex (hexDigit n) = some n := by
  interval_cases n <;> decide

theorem skipWs_cons_not_ws (c : Char) (l : List Char) (h : isWs c = false) :
    skipWs (c :: l) = c :: l := by
  simp [skipWs, List.dropWhile_cons, h]

theorem parseStringBody_escStr (s : List Char) :
    ∀ (fuel : Nat) (rest : List Char), s.length + 1 ≤ fuel →
      parseStringBody fuel (escStr s ++ '"' :: rest) = some (s, rest) := by
  induction s with
  | nil =>
    intro fuel rest h
    cases fuel with
    | zero => omega
    | succ f => simp [escStr, parseStringBody]
  | cons c t ih =>
    intro fuel rest h
    cases fuel with
    | zero => omega
    | succ f =>
    have hf : t.length + 1 ≤ f := by
      simp only [List.length_cons] at h
      omega
    rw [escStr_cons]
    by_cases h1 : c = '"'
    · subst h1
      simp [escChar, parseStringBody, escCode, ih f rest hf]
    by_cases h2 : c = '\\'
    · subst h2
      simp [escChar, parseStringBody, escCode, ih f rest hf]
    by_cases h3 : c = '\n'
    · subst h3
      simp [escChar, parseStringBody, escCode, ih f rest hf]
    by_cases h4 : c = '\t'
    · subst h4
      simp [escChar, parseStringBody, escCode, ih f rest hf]
    by_cases h5 : c = '\r'
    · subst h5
      simp [escChar, parseStringBody, escCode, ih f rest hf]
    by_cases h6 : c = Char.ofNat 8
    · subst h6
      simp [escChar, parseStringBody, escCode, ih f rest hf]
    by_cases h7 : c = Char.ofNat 12
    · subst h7
      simp [escChar, parseStringBody, escCode, ih f rest hf]
    by_cases h8 : c.toNat < 32
    · have hdiv : c.toNat / 16 < 16 := by omega
      have hmod : c.toNat % 16 < 16 := Nat.mod_lt _ (by norm_num)
      have hcode : (((0 : Nat) * 16 + 0) * 16 + c.toNat / 16) * 16 + c.toNat % 16 = c.toNat := by
        omega
      have h0 : parseHex '0' = some 0 := by decide
      simp only [escChar, if_neg h1, if_neg h2, if_neg h3, if_neg h4, if_neg h5,
        if_neg h6, if_neg h7, if_pos h8]
      simp [parseStringBody, h0, parseHex_hexDigit _ hdiv, parseHex_hexDigit _ hmod,
        hcode, Char.ofNat_toNat, ih f rest hf]
      have hrec : c.toNat / 16 * 16 + c.toNat % 16 = c.toNat := by omega
      rw [hrec, Char.ofNat_toNat]
      exact ⟨by omega, rfl⟩
    · simp only [escChar, if_neg h1, if_neg h2, if_neg h3, if_neg h4, if_neg h5,
        if_neg h6, if_neg h7, if_neg h8]
      simp [parseStringBody, if_neg h1, if_neg h2, ih f rest hf]

theorem parseItems_space (fuel : Nat) (l : List Char) :
    parseItems fuel (' ' :: l) = parseItems fuel l := by
  cases fuel with
  | zero => rfl
  | succ f =>
    have hw : skipWs (' ' :: l) = skipWs l := by
      simp [skipWs, List.dropWhile_cons, isWs]
    simp only [parseItems, hw]

theorem joinSep_length_bound (items : List (List Char)) :
    items.length ≤ (joinSep [',', ' '] items).length + 1 := by
  induction items with
  | nil => simp [joinSep]
  | cons x t ih =>
    cases t with
    | nil => simp [joinSep]
    | cons y t2 =>
      simp only [joinSep, List.length_append, List.length_cons] at *
      omega

theorem parseItems_joinSep (ts : List (List Char)) :
    ∀ (fuel : Nat) (rest : List Char), ts ≠ [] → ts.length ≤ fuel →
      parseItems fuel (joinSep [',', ' '] (ts.map quoteStr) ++ ']' :: rest) =
        some (ts, rest) := by
  induction ts with
  | nil =>
    intro fuel rest hne _
    exact absurd rfl hne
  | cons x t ih =>
    intro fuel rest _ hfuel
    cases fuel with
    | zero => simp at hfuel
    | succ f =>
    cases t with
    | nil =>
      simp only [List.map_cons, List.map_nil, joinSep, quoteStr, List.cons_append,
        List.append_assoc, List.singleton_append]
      have hb : x.length + 1 ≤ (escStr x ++ '"' :: ']' :: rest).length + 1 := by
        have := length_le_escStr x
        simp only [List.length_append, List.length_cons]
        omega
      have hx := parseStringBody_escStr x ((escStr x ++ '"' :: ']' :: rest).length + 1)
        (']' :: rest) hb
      simp only [List.length_append, List.length_cons] at hx
      simp [parseItems, skipWs_cons_not_ws, isWs, skipWs, List.dropWhile_cons,
        List.length_append, List.length_cons, hx]
    | cons y t2 =>
      simp only [List.map_cons, joinSep, quoteStr, List.cons_append,
        List.append_assoc, List.singleton_append]
      have hb : x.length + 1 ≤
          (escStr x ++ '"' :: ',' :: ' ' ::
            (joinSep [',', ' '] (quoteStr y :: t2.map quoteStr) ++ ']' :: rest)).length + 1 := by
        have := length_le_escStr x
        simp only [List.length_append, List.length_cons]
        omega
      have hx := parseStringBody_escStr x
        ((escStr x ++ '"' :: ',' :: ' ' ::
            (joinSep [',', ' '] (quoteStr y :: t2.map quoteStr) ++ ']' :: rest)).length + 1)
        (',' :: ' ' :: (joinSep [',', ' '] (quoteStr y :: t2.map quoteStr) ++ ']' :: rest)) hb
      have hrec := ih f rest (by simp) (by simp at hfuel ⊢; omega)
      simp only [List.map_cons, quoteStr] at hrec
      simp only [quoteStr, List.cons_append, List.append_assoc, List.singleton_append,
        List.length_append, List.length_cons] at hx
      simp [parseItems, skipWs, List.dropWhile_cons, isWs, quoteStr,
        List.length_append, List.length_cons, hx, parseItems_space]
      exact hrec

theorem String_mk_toList (s : String) : String.mk s.toList = s := rfl

theorem String_mk_data (s : String) : String.mk s.data = s := rfl

theorem json_dumps_toList (ts : List String) : (json_dumps ts).toList = dumpsList ts := rfl

theorem json_round_trip (ts : List String) : json_loads (json_dumps ts) = some ts := by
  cases ts with
  | nil => rfl
  | cons x t =>
    have hcomp : (x :: t).map (fun s => quoteStr s.toList) =
        ((x :: t).map String.toList).map quoteStr := by
      simp [List.map_map]
    obtain ⟨z, hz⟩ : ∃ z, joinSep [',', ' '] (((x :: t).map String.toList).map quoteStr) =
        ('"' :: (escStr x.toList ++ ['"'])) ++ z := by
      cases t with
      | nil => exact ⟨[], by simp [joinSep, quoteStr]⟩
      | cons y t2 =>
        exact ⟨[',', ' '] ++ joinSep [',', ' '] (((y :: t2).map String.toList).map quoteStr),
          by simp [joinSep, quoteStr]⟩
    have hitems := parseItems_joinSep ((x :: t).map String.toList)
      ((joinSep [',', ' '] (((x :: t).map String.toList).map quoteStr) ++ [']']).length + 1)
      []
      (by simp)
      (by
        have := joinSep_length_bound (((x :: t).map String.toList).map quoteStr)
        simp only [List.length_append, List.length_map] at this ⊢
        omega)
    rw [show (']' : Char) :: ([] : List Char) = [']'] from rfl] at hitems
    rw [hz] at hitems
    simp only [List.cons_append, List.append_assoc, List.length_append,
      List.length_cons, List.singleton_append, List.nil_append, List.append_nil,
      List.length_nil, Nat.add_zero, Nat.zero_add, String.toList] at hitems
    unfold json_loads
    rw [json_dumps_toList]
    unfold dumpsList
    rw [hcomp, hz]
    simp only [List.cons_append, List.append_assoc, List.singleton_append]
    simp [skipWs, List.dropWhile_cons, isWs, List.length_append, List.length_cons,
      String.toList, hitems, List.map_map, Function.comp, String_mk_toList,
      String_mk_data]
    have : (String.mk ∘ String.toList) = id := by
      funext s
      exact String_mk_toList s
    simp [this]

/-! ## Repository lemmas -/

theorem json_dumps_ne_empty (ts : List String) : json_dumps ts ≠ "" := by
  unfold json_dumps dumpsList
  intro h
  have hdata := congrArg String.data h
  simp at hdata

theorem agentOfRow_agentRow (a : AgentRec) : agentOfRow (agentRow a) = some a := by
  unfold agentOfRow agentRow
  simp only [if_neg (json_dumps_ne_empty a.tools), json_round_trip, Option.map_some]
  rfl

theorem load_append_row (db : List Row) (l : List AgentRec) (r : Row) (a : AgentRec)
    (h1 : load_agents_from_db db = some l) (h2 : agentOfRow r = some a) :
    load_agents_from_db (db ++ [r]) = some (l ++ [a]) := by
  induction db generalizing l with
  | nil =>
    simp only [load_agents_from_db] at h1
    cases h1
    simp [load_agents_from_db, h2]
  | cons x xs ih =>
    rw [List.cons_append]
    cases hx : agentOfRow x with
    | none => simp [load_agents_from_db, hx] at h1
    | some a0 =>
      cases hl : load_agents_from_db xs with
      | none => simp [load_agents_from_db, hx, hl] at h1
      | some l0 =>
        simp [load_agents_from_db, hx, hl] at h1
        simp [load_agents_from_db, hx, ih l0 hl, ← h1]

/-! ## Session-registry lemmas -/

theorem find?_id_eq_none {agents : List AgentRec} {i : String}
    (h : ∀ a ∈ agents, a.id ≠ i) :
    agents.find? (fun a => a.id == i) = none := by
  apply List.find?_eq_none.mpr
  intro a ha
  simp [h a ha]

theorem delete_agent_no_match (w : World) (i : String)
    (h : ∀ a ∈ w.session.agents, a.id ≠ i) :
    delete_agent i w = w := by
  unfold delete_agent
  rw [find?_id_eq_none h]

theorem eraseP_id_eq_filter (agents : List AgentRec) (i : String)
    (hnd : (agents.map AgentRec.id).Nodup) :
    agents.eraseP (fun a => a.id == i) = agents.filter (fun a => a.id != i) := by
  induction agents with
  | nil => rfl
  | cons x xs ih =>
    simp only [List.map_cons, List.nodup_cons] at hnd
    by_cases hx : x.id = i
    · rw [List.eraseP_cons_of_pos (by simp [hx])]
      rw [List.filter_cons_of_neg (by simp [hx])]
      symm
      apply List.filter_eq_self.mpr
      intro a ha
      have : a.id ≠ x.id := by
        intro hcontra
        exact hnd.1 (by rw [← hcontra]; exact List.mem_map_of_mem AgentRec.id ha)
      simp [hx ▸ this]
    · rw [List.eraseP_cons_of_neg (by simp [hx])]
      rw [List.filter_cons_of_pos (by simp [hx])]
      rw [ih hnd.2]

theorem run_log_foldl (agents : List AgentRec) (names : List String) (acc : List String) :
    names.foldl
      (fun acc n =>
        match agents.find? (fun a => a.name == n) with
        | some agent => acc ++ [simulate_work agent]
        | none => acc)
      acc =
    acc ++ names.filterMap (fun n => (agents.find? (fun a => a.name == n)).map simulate_work) := by
  induction names generalizing acc with
  | nil => simp
  | cons n ns ih =>
    simp only [List.foldl_cons, List.filterMap_cons]
    cases h : agents.find? (fun a => a.name == n) with
    | none => simp only [h]; rw [ih]; simp
    | some ag => simp only [h]; rw [ih]; simp

theorem length_filterMap_eq_countP {α β : Type} (f : α → Option β) (l : List α) :
    (l.filterMap f).length = l.countP (fun x => (f x).isSome) := by
  induction l with
  | nil => rfl
  | cons x xs ih =>
    cases h : f x <;> simp [List.filterMap_cons, h, List.countP_cons, ih]

/-! ## Claim theorems -/

/-- Claim C2: when the name input or the prompt input is empty (any
combination), `add_agent` performs no mutation — the registry and the table
are untouched, the inputs are not cleared — and a validation failure toast
is reported. -/
theorem add_agent_rejects_empty (w : World) (freshId : String)
    (h : w.session.agent_name_input = "" ∨ w.session.agent_prompt_input = "") :
    ∃ w2, add_agent freshId w = Except.ok w2 ∧
      w2.session = w.session ∧
      w2.db = w.db ∧
      w2.toasts = w.toasts ++ [Toast.validationError] := by
  refine ⟨{ w with toasts := w.toasts ++ [Toast.validationError] }, ?_, rfl, rfl, rfl⟩
  unfold add_agent
  rw [if_pos h]

/-- Claim C4: `delete_agent` on an id with no matching record in the session
registry is a no-op: the whole world (hence registry size and table row
count) is unchanged and no error occurs. -/
theorem delete_agent_absent_noop (w : World) (i : String)
    (h : ∀ a ∈ w.session.agents, a.id ≠ i) :
    delete_agent i w = w ∧
    (delete_agent i w).session.agents.length = w.session.agents.length ∧
    (delete_agent i w).db.length = w.db.length := by
  have hnm := delete_agent_no_match w i h
  exact ⟨hnm, by rw [hnm], by rw [hnm]⟩

/-- Claim C9: `delete_agent` consults only the session registry — for an id
with a matching table row but no matching registry record, the table is left
completely unchanged and the orphan row survives. -/
theorem delete_agent_orphan_row_kept (w : World) (i : String) (r : Row)
    (hr : r ∈ w.db) (hri : r.id = i)
    (h : ∀ a ∈ w.session.agents, a.id ≠ i) :
    (delete_agent i w).db = w.db ∧ r ∈ (delete_agent i w).db := by
  have hnm := delete_agent_no_match w i h
  rw [hnm]
  exact ⟨rfl, hr⟩

/-- Claim C10: `load_agents_from_db` is total on rows whose `tools` column is
NULL or the empty string — every such row loads as a record with an empty
tools list, with no deserialization error. -/
theorem load_tools_null_or_empty (db : List Row)
    (h : ∀ r ∈ db, r.tools = none ∨ r.tools = some "") :
    load_agents_from_db db =
      some (db.map fun r =>
        { id := r.id, name := r.name, prompt := r.prompt, model := r.model,
          tools := ([] : List String) }) := by
  induction db with
  | nil => rfl
  | cons r rest ih =>
    have hr := h r (by simp)
    have hof : agentOfRow r =
        some { id := r.id, name := r.name, prompt := r.prompt, model := r.model,
               tools := ([] : List String) } := by
      rcases hr with h1 | h1 <;> simp [agentOfRow, h1]
    simp [load_agents_from_db, hof, ih (fun x hx => h x (List.mem_cons_of_mem _ hx))]

/-- Claim C5: round trip through the store — saving any agent record and
then loading yields, for the saved row, a record with the same id, name,
prompt, model and (deserialized) tools as the original. -/
theorem save_load_round_trip (db : List Row) (l : List AgentRec) (a : AgentRec)
    (db2 : List Row)
    (hload : load_agents_from_db db = some l)
    (hsave : save_agent_to_db db a = Except.ok db2) :
    load_agents_from_db db2 = some (l ++ [a]) := by
  unfold save_agent_to_db at hsave
  split at hsave
  · simp at hsave
  · injection hsave with h2
    subst h2
    exact load_append_row db l (agentRow a) a hload (agentOfRow_agentRow a)

/-- Claim C1: with a non-empty name input and a non-empty prompt input and a
fresh id (one used by no table row and no registry record — `uuid.uuid4()`),
`add_agent` creates exactly one new record carrying that id, appended to the
session registry and inserted into the table, and that id occurs exactly
once in each. -/
theorem add_agent_creates_record (w : World) (freshId : String)
    (hn : w.session.agent_name_input ≠ "")
    (hp : w.session.agent_prompt_input ≠ "")
    (hdb : ∀ r ∈ w.db, r.id ≠ freshId)
    (hreg : ∀ a ∈ w.session.agents, a.id ≠ freshId) :
    ∃ w2, add_agent freshId w = Except.ok w2 ∧
      w2.session.agents = w.session.agents ++ [newAgentOf freshId w] ∧
      w2.db = w.db ++ [agentRow (newAgentOf freshId w)] ∧
      (w2.session.agents.filter fun x => x.id == freshId).length = 1 ∧
      (w2.db.filter fun r => r.id == freshId).length = 1 := by
  have hany : (w.db.any fun r => r.id == (newAgentOf freshId w).id) = false := by
    rw [List.any_eq_false]
    intro r hrmem
    simp [newAgentOf, hdb r hrmem]
  have hsave : save_agent_to_db w.db (newAgentOf freshId w) =
      Except.ok (w.db ++ [agentRow (newAgentOf freshId w)]) := by
    unfold save_agent_to_db
    rw [hany]
    simp
  refine ⟨{ w with
      session := { w.session with
        agents := w.session.agents ++ [newAgentOf freshId w],
        agent_name_input := "", agent_prompt_input := "" },
      db := w.db ++ [agentRow (newAgentOf freshId w)],
      toasts := w.toasts ++ [Toast.createdSuccess w.session.agent_name_input] },
    ?_, rfl, rfl, ?_, ?_⟩
  · unfold add_agent
    rw [if_neg (by push_neg; exact ⟨hn, hp⟩)]
    simp only [hsave]
  · rw [List.filter_append]
    have h1 : (w.session.agents.filter fun x => x.id == freshId) = [] := by
      rw [List.filter_eq_nil_iff]
      intro a ha
      simp [hreg a ha]
    rw [h1]
    simp [newAgentOf]
  · rw [List.filter_append]
    have h1 : (w.db.filter fun r => r.id == freshId) = [] := by
      rw [List.filter_eq_nil_iff]
      intro r hrmem
      simp [hdb r hrmem]
    rw [h1]
    simp [agentRow, newAgentOf]

/-- Claim C3: deleting an id that is present in the registry (registry ids
being pairwise distinct, the documented invariant) removes exactly the
record with that id from the registry and exactly the rows with that id
from the table, leaving every other record in place, and a second identical
delete changes nothing at all. -/
theorem delete_agent_present_removes (w : World) (i : String) (a : AgentRec)
    (ha : a ∈ w.session.agents) (hai : a.id = i)
    (hnd : (w.session.agents.map AgentRec.id).Nodup) :
    (delete_agent i w).session.agents = w.session.agents.filter (fun x => x.id != i) ∧
    (delete_agent i w).db = w.db.filter (fun r => r.id != i) ∧
    delete_agent i (delete_agent i w) = delete_agent i w := by
  have hagents : (delete_agent i w).session.agents =
      w.session.agents.filter (fun x => x.id != i) := by
    unfold delete_agent
    cases hf : w.session.agents.find? (fun x => x.id == i) with
    | none =>
      exfalso
      have := List.find?_eq_none.mp hf a ha
      simp [hai] at this
    | some a0 =>
      simpa using eraseP_id_eq_filter w.session.agents i hnd
  have hdbeq : (delete_agent i w).db = w.db.filter (fun r => r.id != i) := by
    unfold delete_agent
    cases hf : w.session.agents.find? (fun x => x.id == i) with
    | none =>
      exfalso
      have := List.find?_eq_none.mp hf a ha
      simp [hai] at this
    | some a0 => simp [delete_agent_from_db]
  refine ⟨hagents, hdbeq, ?_⟩
  apply delete_agent_no_match
  rw [hagents]
  intro x hx
  have hm := List.mem_filter.mp hx
  simpa using hm.2

/-- Claim C6: saving a record whose id already keys a table row fails with
the constraint violation, and when this happens inside `add_agent` (with
valid inputs) the callback propagates the failure leaving the new record
already appended to the in-memory registry and the table unchanged. -/
theorem save_duplicate_id_fails (w : World) (a : AgentRec) (r : Row)
    (hr : r ∈ w.db) (haid : a.id = r.id)
    (hn : w.session.agent_name_input ≠ "")
    (hp : w.session.agent_prompt_input ≠ "") :
    save_agent_to_db w.db a = Except.error DbError.constraintViolation ∧
    ∃ w1, add_agent r.id w = Except.error w1 ∧
      w1.session.agents = w.session.agents ++ [newAgentOf r.id w] ∧
      w1.db = w.db ∧
      w1.toasts = w.toasts := by
  have hany : (w.db.any fun x => x.id == a.id) = true := by
    rw [List.any_eq_true]
    exact ⟨r, hr, by simp [haid]⟩
  have hany2 : (w.db.any fun x => x.id == (newAgentOf r.id w).id) = true := by
    rw [List.any_eq_true]
    exact ⟨r, hr, by simp [newAgentOf]⟩
  constructor
  · unfold save_agent_to_db
    rw [hany]
    simp
  · refine ⟨{ w with
        session := { w.session with
          agents := w.session.agents ++ [newAgentOf r.id w] } },
      ?_, rfl, rfl, rfl⟩
    unfold add_agent
    rw [if_neg (by push_neg; exact ⟨hn, hp⟩)]
    simp [save_agent_to_db, hany2]

/-- Claim C7: running the simulation with selection `["Alice", "Bob"]` when
both names resolve in the registry appends exactly four log entries — start
marker, work block for the first Alice match, work block for the first Bob
match, end marker, in that order — and mutates nothing else in the session
state, the table or the toast stream beyond the completion toast. -/
theorem run_simulation_two_resolved (w : World) (a b : AgentRec)
    (hsel : w.session.team_multiselect = ["Alice", "Bob"])
    (ha : w.session.agents.find? (fun x => x.name == "Alice") = some a)
    (hb : w.session.agents.find? (fun x => x.name == "Bob") = some b) :
    run_team_simulation w =
      { w with
        session := { w.session with
          simulation_log := w.session.simulation_log ++
            [startMarker, simulate_work a, simulate_work b, endMarker] },
        toasts := w.toasts ++ [Toast.simulationFinished] } := by
  unfold run_team_simulation
  rw [hsel]
  simp [ha, hb]

/-- Claim C8 (implicit): for any non-empty selection the simulation log
grows by exactly the two bracket markers plus one work block per resolved
name, the start marker first and the end marker last among the appended
entries, even when zero names resolve. -/
theorem run_simulation_always_bracketed (w : World)
    (h : w.session.team_multiselect ≠ []) :
    ∃ body,
      (run_team_simulation w).session.simulation_log =
        w.session.simulation_log ++ [startMarker] ++ body ++ [endMarker] ∧
      body = w.session.team_multiselect.filterMap
        (fun n => (w.session.agents.find? (fun x => x.name == n)).map simulate_work) ∧
      (run_team_simulation w).session.simulation_log.length =
        w.session.simulation_log.length + 2 +
          w.session.team_multiselect.countP
            (fun n => (w.session.agents.find? (fun x => x.name == n)).isSome) := by
  have hlog : (run_team_simulation w).session.simulation_log =
      w.session.simulation_log ++ [startMarker] ++
        (w.session.team_multiselect.filterMap
          (fun n => (w.session.agents.find? (fun x => x.name == n)).map simulate_work)) ++
        [endMarker] := by
    unfold run_team_simulation
    rw [if_neg (by simpa [List.isEmpty_iff] using h)]
    simp only []
    rw [run_log_foldl]
  refine ⟨_, hlog, rfl, ?_⟩
  rw [hlog]
  simp only [List.length_append, List.length_cons, List.length_nil]
  rw [length_filterMap_eq_countP]
  have hsame : (w.session.team_multiselect.countP
        (fun x => ((w.session.agents.find? (fun y => y.name == x)).map simulate_work).isSome)) =
      (w.session.team_multiselect.countP
        (fun n => (w.session.agents.find? (fun x => x.name == n)).isSome)) := by
    apply List.countP_congr
    intro x _
    cases w.session.agents.find? (fun y => y.name == x) <;> simp
  rw [hsame]
  omega

/-! ## Concrete sample data for witnesses -/

def agentAlice : AgentRec :=
  { id := "id-1", name := "Alice", prompt := "research papers",
    model := "gpt-4o", tools := ["Калькулятор"] }

def agentBob : AgentRec :=
  { id := "id-2", name := "Bob", prompt := "write summary",
    model := "claude-3-opus-20240229", tools := [] }

def sampleWorld : World :=
  { session :=
      { agents := [agentAlice, agentBob],
        simulation_log := [],
        agent_name_input := "Carol",
        agent_prompt_input := "plan the sprint",
        agent_model_input := "gpt-4o",
        agent_tools_input := [],
        team_multiselect := ["Alice", "Bob"] },
    db := [agentRow agentAlice, agentRow agentBob],
    toasts := [] }

def emptyInputWorld : World :=
  { sampleWorld with
    session := { sampleWorld.session with agent_name_input := "" } }

def orphanWorld : World :=
  { sampleWorld with
    session := { sampleWorld.session with agents := [agentBob] } }

def agentDup : AgentRec :=
  { id := "id-1", name := "Dup", prompt := "clash", model := "gpt-4o", tools := [] }

def nullToolsDb : List Row :=
  [{ id := "r1", name := "N1", prompt := "P1", model := "M1", tools := none },
   { id := "r2", name := "N2", prompt := "P2", model := "M2", tools := some "" }]

/-! ## Witnesses -/

/-- Witness for C1 at a concrete world and fresh id. -/
theorem add_agent_creates_record_witness :
    ∃ w2, add_agent "id-3" sampleWorld = Except.ok w2 ∧
      w2.session.agents = sampleWorld.session.agents ++ [newAgentOf "id-3" sampleWorld] ∧
      w2.db = sampleWorld.db ++ [agentRow (newAgentOf "id-3" sampleWorld)] ∧
      (w2.session.agents.filter fun x => x.id == "id-3").length = 1 ∧
      (w2.db.filter fun r => r.id == "id-3").length = 1 :=
  add_agent_creates_record sampleWorld "id-3" (by decide) (by decide)
    (by decide) (by decide)

/-- Witness for C2 at a concrete world with an empty name input. -/
theorem add_agent_rejects_empty_witness :
    ∃ w2, add_agent "id-9" emptyInputWorld = Except.ok w2 ∧
      w2.session = emptyInputWorld.session ∧
      w2.db = emptyInputWorld.db ∧
      w2.toasts = emptyInputWorld.toasts ++ [Toast.validationError] :=
  add_agent_rejects_empty emptyInputWorld "id-9" (Or.inl rfl)

/-- Witness for C3 at a concrete world and a present id. -/
theorem delete_agent_present_removes_witness :
    (delete_agent "id-1" sampleWorld).session.agents =
        sampleWorld.session.agents.filter (fun x => x.id != "id-1") ∧
    (delete_agent "id-1" sampleWorld).db = sampleWorld.db.filter (fun r => r.id != "id-1") ∧
    delete_agent "id-1" (delete_agent "id-1" sampleWorld) = delete_agent "id-1" sampleWorld :=
  delete_agent_present_removes sampleWorld "id-1" agentAlice (by decide) (by decide) (by decide)

/-- Witness for C4 at a concrete world and an absent id. -/
theorem delete_agent_absent_noop_witness :
    delete_agent "id-7" sampleWorld = sampleWorld ∧
    (delete_agent "id-7" sampleWorld).session.agents.length =
      sampleWorld.session.agents.length ∧
    (delete_agent "id-7" sampleWorld).db.length = sampleWorld.db.length :=
  delete_agent_absent_noop sampleWorld "id-7" (by decide)

/-- Witness for C5 at a concrete store and record. -/
theorem save_load_round_trip_witness :
    load_agents_from_db [agentRow agentAlice, agentRow agentBob] =
      some ([agentAlice] ++ [agentBob]) :=
  save_load_round_trip [agentRow agentAlice] [agentAlice] agentBob
    [agentRow agentAlice, agentRow agentBob] (by rfl) (by rfl)

/-- Witness for C6 at a concrete world with a clashing id. -/
theorem save_duplicate_id_fails_witness :
    save_agent_to_db sampleWorld.db agentDup = Except.error DbError.constraintViolation ∧
    ∃ w1, add_agent (agentRow agentAlice).id sampleWorld = Except.error w1 ∧
      w1.session.agents = sampleWorld.session.agents ++
        [newAgentOf (agentRow agentAlice).id sampleWorld] ∧
      w1.db = sampleWorld.db ∧
      w1.toasts = sampleWorld.toasts :=
  save_duplicate_id_fails sampleWorld agentDup (agentRow agentAlice)
    (by decide) (by decide) (by decide) (by decide)

/-- Witness for C7 at a concrete world where Alice and Bob both resolve. -/
theorem run_simulation_two_resolved_witness :
    run_team_simulation sampleWorld =
      { sampleWorld with
        session := { sampleWorld.session with
          simulation_log := sampleWorld.session.simulation_log ++
            [startMarker, simulate_work agentAlice, simulate_work agentBob, endMarker] },
        toasts := sampleWorld.toasts ++ [Toast.simulationFinished] } :=
  run_simulation_two_resolved sampleWorld agentAlice agentBob rfl (by decide) (by decide)

/-- Witness for C8 at a concrete world with a non-empty selection. -/
theorem run_simulation_always_bracketed_witness :
    ∃ body,
      (run_team_simulation sampleWorld).session.simulation_log =
        sampleWorld.session.simulation_log ++ [startMarker] ++ body ++ [endMarker] ∧
      body = sampleWorld.session.team_multiselect.filterMap
        (fun n => (sampleWorld.session.agents.find? (fun x => x.name == n)).map simulate_work) ∧
      (run_team_simulation sampleWorld).session.simulation_log.length =
        sampleWorld.session.simulation_log.length + 2 +
          sampleWorld.session.team_multiselect.countP
            (fun n => (sampleWorld.session.agents.find? (fun x => x.name == n)).isSome) :=
  run_simulation_always_bracketed sampleWorld (by decide)

/-- Witness for C9 at a concrete world with an orphan table row. -/
theorem delete_agent_orphan_row_kept_witness :
    (delete_agent "id-1" orphanWorld).db = orphanWorld.db ∧
    agentRow agentAlice ∈ (delete_agent "id-1" orphanWorld).db :=
  delete_agent_orphan_row_kept orphanWorld "id-1" (agentRow agentAlice)
    (by decide) (by decide) (by decide)

/-- Witness for C10 at a concrete store with NULL and empty tools columns. -/
theorem load_tools_null_or_empty_witness :
    load_agents_from_db nullToolsDb =
      some (nullToolsDb.map fun r =>
        { id := r.id, name := r.name, prompt := r.prompt, model := r.model,
          tools := ([] : List String) }) :=
  load_tools_null_or_empty nullToolsDb (by decide)
